import Mathlib

/-!
Verification of the Neo4j Aura proxy (`src/app.js`) against its
natural-language specification.

The development shallowly embeds the JavaScript source:

* JavaScript/JSON values (including the neo4j driver's wide `Integer`
  wrapper) become the inductive type `JSValue`.
* The pure function `serialize` (app.js lines 57-72) becomes the Lean
  function `serialize`.
* The `POST /query` handler (lines 84-109) becomes `postQuery`, with the
  external driver's `session.run` passed in as an oracle and the
  session-lifecycle side effects recorded in an event trace.
* The diagnostic probe handlers `/debug/bolt` (lines 112-119) and
  `/debug/tls` (lines 121-132) become small event-driven state machines
  (`boltStep`, `tlsStep`) folded over the sequence of socket events.
* The CORS origin callback (lines 35-42) becomes `corsOriginAllowed` /
  `corsMiddleware`, and the allow-list parsing (lines 24-25) becomes
  `parseAllowList`.
-/

/-- A JavaScript value as the proxy sees it: JSON primitives, arrays,
string-keyed objects, plus the neo4j driver's wide `Integer` wrapper
(`wideInt`).  Native numbers are modelled as exact integers (every number
that appears in the claims is an integer in the double's safe range). -/
inductive JSValue where
  | vnull : JSValue
  | vbool : Bool → JSValue
  | vnum : Int → JSValue
  | vstr : String → JSValue
  | wideInt : Int → JSValue
  | varr : List JSValue → JSValue
  | vobj : List (String × JSValue) → JSValue

/-- JavaScript property lookup on an object literal: first entry wins
(JS objects have unique keys, so the list is assumed duplicate-free). -/
def jsLookup (k : String) : List (String × JSValue) → Option JSValue
  | [] => none
  | e :: rest => if e.1 = k then some e.2 else jsLookup k rest

/-- JavaScript truthiness of a value (`if (v)`): `null`, `false`, `0` and
the empty string are falsy; every object (including the neo4j `Integer`
wrapper, arrays and the empty object) is truthy. -/
def truthy : JSValue → Bool
  | .vnull => false
  | .vbool b => b
  | .vnum n => n != 0
  | .vstr s => s != ""
  | .wideInt _ => true
  | .varr _ => true
  | .vobj _ => true

/-- `Number.MAX_SAFE_INTEGER`, the largest integer a double represents
exactly: `2^53 - 1`. -/
def maxSafeInteger : Int := 9007199254740991

/-- The neo4j `Integer.inSafeRange` check: the value lies between
`Number.MIN_SAFE_INTEGER` and `Number.MAX_SAFE_INTEGER` inclusive. -/
def inSafeRange (n : Int) : Bool := (-maxSafeInteger ≤ n) && (n ≤ maxSafeInteger)

/-- Signed low 32-bit half of the 64-bit two's-complement representation,
mirroring the `low` field of the neo4j `Integer` wrapper. -/
def low32 (n : Int) : Int :=
  let u := (n % (2 ^ 64)) % (2 ^ 32)
  if u < 2 ^ 31 then u else u - 2 ^ 32

/-- Signed high 32-bit half of the 64-bit two's-complement representation,
mirroring the `high` field of the neo4j `Integer` wrapper. -/
def high32 (n : Int) : Int :=
  let u := (n % (2 ^ 64)) / (2 ^ 32)
  if u < 2 ^ 31 then u else u - 2 ^ 32

/-- Index-keyed entries of an array, starting at index `i`, as produced by
`Object.entries` on a JavaScript array. -/
def arrayEntries (i : Nat) : List JSValue → List (String × JSValue)
  | [] => []
  | x :: xs => (toString i, x) :: arrayEntries (i + 1) xs

/-- Index-keyed single-character entries of a string, starting at index
`i`, as produced by `Object.entries` on a JavaScript string. -/
def stringEntries (i : Nat) : List Char → List (String × JSValue)
  | [] => []
  | c :: cs => (toString i, JSValue.vstr (String.singleton c)) :: stringEntries (i + 1) cs

/-- `Object.entries(v)`: own enumerable entries of a value.  Objects give
their entries, arrays give index-keyed entries, strings give index-keyed
single-character strings, the neo4j `Integer` wrapper exposes its `low` and
`high` fields, and primitives have no entries. -/
def jsEntries : JSValue → List (String × JSValue)
  | .vobj es => es
  | .varr xs => arrayEntries 0 xs
  | .vstr s => stringEntries 0 s.toList
  | .wideInt n => [("low", JSValue.vnum (low32 n)), ("high", JSValue.vnum (high32 n))]
  | _ => []

mutual

/-- Size measure used to justify the recursion in `serialize`: every value
reachable through `jsEntries` of a looked-up field is smaller than the
enclosing object. -/
def msize : JSValue → Nat
  | .varr xs => 1 + msizeList xs
  | .vobj es => 1 + msizeEntries es
  | _ => 1

/-- Sum of `msize` over a list of values. -/
def msizeList : List JSValue → Nat
  | [] => 0
  | x :: xs => msize x + msizeList xs

/-- Sum of `msize` over the values of an entry list. -/
def msizeEntries : List (String × JSValue) → Nat
  | [] => 0
  | e :: es => msize e.2 + msizeEntries es

end

theorem msize_pos (v : JSValue) : 0 < msize v := by
  cases v <;> simp [msize]

theorem msize_le_of_mem_list {x : JSValue} {xs : List JSValue} (h : x ∈ xs) :
    msize x ≤ msizeList xs := by
  induction xs with
  | nil => cases h
  | cons y ys ih =>
    rcases List.mem_cons.mp h with h1 | h2
    · subst h1; simp [msizeList]
    · have := ih h2
      simp [msizeList]
      omega

theorem msize_le_of_mem_entries {e : String × JSValue} {es : List (String × JSValue)}
    (h : e ∈ es) : msize e.2 ≤ msizeEntries es := by
  induction es with
  | nil => cases h
  | cons f fs ih =>
    rcases List.mem_cons.mp h with h1 | h2
    · subst h1; simp [msizeEntries]
    · have := ih h2
      simp [msizeEntries]
      omega

theorem msize_of_lookup {k : String} {es : List (String × JSValue)} {p : JSValue}
    (h : jsLookup k es = some p) : msize p ≤ msizeEntries es := by
  induction es with
  | nil => simp [jsLookup] at h
  | cons f fs ih =>
    by_cases hk : f.1 = k
    · simp [jsLookup, hk] at h
      subst h
      simp [msizeEntries]
    · simp [jsLookup, hk] at h
      have := ih h
      simp [msizeEntries]
      omega

theorem mem_arrayEntries {e : String × JSValue} :
    ∀ {i : Nat} {xs : List JSValue}, e ∈ arrayEntries i xs → e.2 ∈ xs := by
  intro i xs
  induction xs generalizing i with
  | nil => intro h; cases h
  | cons y ys ih =>
    intro h
    rcases List.mem_cons.mp h with h1 | h2
    · subst h1; simp
    · exact List.mem_cons.mpr (Or.inr (ih h2))

theorem mem_stringEntries {e : String × JSValue} :
    ∀ {i : Nat} {cs : List Char}, e ∈ stringEntries i cs →
      ∃ c, e.2 = JSValue.vstr (String.singleton c) := by
  intro i cs
  induction cs generalizing i with
  | nil => intro h; cases h
  | cons c cs ih =>
    intro h
    rcases List.mem_cons.mp h with h1 | h2
    · exact ⟨c, by rw [h1]⟩
    · exact ih h2

theorem msize_of_jsEntries {p : JSValue} {e : String × JSValue}
    (h : e ∈ jsEntries p) : msize e.2 ≤ msize p := by
  cases p with
  | vobj es =>
    simp only [jsEntries] at h
    have := msize_le_of_mem_entries h
    simp [msize]
    omega
  | varr xs =>
    simp only [jsEntries] at h
    have := msize_le_of_mem_list (mem_arrayEntries h)
    simp [msize]
    omega
  | vstr s =>
    obtain ⟨c, hc⟩ := mem_stringEntries h
    rw [hc]
    simp [msize]
  | wideInt n =>
    simp [jsEntries] at h
    rcases h with h | h <;> rw [h] <;> simp [msize]
  | vnull => simp [jsEntries] at h
  | vbool b => simp [jsEntries] at h
  | vnum n => simp [jsEntries] at h

/-- The value serializer of app.js (lines 57-72), translated clause by
clause:

```js
function serialize(v) {
  if (v == null) return null;
  if (neo4j.isInt(v)) return v.inSafeRange() ? v.toNumber() : v.toString();
  if (Array.isArray(v)) return v.map(serialize);
  if (typeof v === 'object') {
    if (v.properties) { const out = {};
      for (const [k, val] of Object.entries(v.properties)) out[k] = serialize(val);
      return out; }
    const out = {};
    for (const [k, val] of Object.entries(v)) out[k] = serialize(val);
    return out;
  }
  return v;
}
```

`List.attach` is only a termination device; the clean equations are proved
below (`serialize_varr`, `serialize_vobj`, ...). -/
def serialize (v : JSValue) : JSValue :=
  match v with
  | .vnull => .vnull
  | .wideInt n => if inSafeRange n then .vnum n else .vstr (toString n)
  | .varr xs => .varr (xs.attach.map fun x => serialize x.1)
  | .vobj es =>
    match h : jsLookup "properties" es with
    | some p =>
      if truthy p then
        .vobj ((jsEntries p).attach.map fun e => (e.1.1, serialize e.1.2))
      else
        .vobj (es.attach.map fun e => (e.1.1, serialize e.1.2))
    | none => .vobj (es.attach.map fun e => (e.1.1, serialize e.1.2))
  | .vbool b => .vbool b
  | .vnum n => .vnum n
  | .vstr s => .vstr s
termination_by msize v
decreasing_by
  · have := msize_le_of_mem_list x.2
    simp [msize]
    omega
  · have h1 := msize_of_jsEntries e.2
    have h2 := msize_of_lookup h
    simp [msize]
    omega
  · have := msize_le_of_mem_entries e.2
    simp [msize]
    omega
  · have := msize_le_of_mem_entries e.2
    simp [msize]
    omega

theorem serialize_vnull : serialize .vnull = .vnull := by
  rw [serialize]

theorem serialize_vbool (b : Bool) : serialize (.vbool b) = .vbool b := by
  rw [serialize]

theorem serialize_vnum (n : Int) : serialize (.vnum n) = .vnum n := by
  rw [serialize]

theorem serialize_vstr (s : String) : serialize (.vstr s) = .vstr s := by
  rw [serialize]

theorem serialize_wideInt_eq (n : Int) :
    serialize (.wideInt n) =
      if inSafeRange n then .vnum n else .vstr (toString n) := by
  rw [serialize]

theorem attach_map_values (xs : List JSValue) :
    (xs.attach.map fun x => serialize x.1) = xs.map serialize :=
  List.attach_map_coe xs serialize

theorem attach_map_entryvals (es : List (String × JSValue)) :
    (es.attach.map fun e => (e.1.1, serialize e.1.2)) = es.map fun e => (e.1, serialize e.2) :=
  List.attach_map_coe es fun e => (e.1, serialize e.2)

theorem serialize_varr (xs : List JSValue) :
    serialize (.varr xs) = .varr (xs.map serialize) := by
  rw [serialize, attach_map_values]

theorem serialize_vobj (es : List (String × JSValue)) :
    serialize (.vobj es) =
      match jsLookup "properties" es with
      | some p =>
        if truthy p then
          .vobj ((jsEntries p).map fun e => (e.1, serialize e.2))
        else
          .vobj (es.map fun e => (e.1, serialize e.2))
      | none => .vobj (es.map fun e => (e.1, serialize e.2)) := by
  rw [serialize]
  cases hx : jsLookup "properties" es with
  | some p =>
    cases hp : truthy p
    · simp [hp, attach_map_entryvals]
    · simp [hp, attach_map_entryvals]
  | none =>
    simp [attach_map_entryvals]

/-- Structural induction principle for `JSValue` with hypotheses over the
members of nested lists, proved by well-founded recursion on `msize`. -/
theorem JSValue.inductionOn (P : JSValue → Prop)
    (hnull : P .vnull) (hbool : ∀ b, P (.vbool b)) (hnum : ∀ n, P (.vnum n))
    (hstr : ∀ s, P (.vstr s)) (hwide : ∀ n, P (.wideInt n))
    (harr : ∀ xs, (∀ x ∈ xs, P x) → P (.varr xs))
    (hobj : ∀ es, (∀ e ∈ es, P e.2) → P (.vobj es)) :
    ∀ v, P v
  | .vnull => hnull
  | .vbool b => hbool b
  | .vnum n => hnum n
  | .vstr s => hstr s
  | .wideInt n => hwide n
  | .varr xs => harr xs fun x _ =>
      JSValue.inductionOn P hnull hbool hnum hstr hwide harr hobj x
  | .vobj es => hobj es fun e _ =>
      JSValue.inductionOn P hnull hbool hnum hstr hwide harr hobj e.2
termination_by v => msize v
decreasing_by
  · rename_i hmem
    have := msize_le_of_mem_list hmem
    simp [msize]
    omega
  · rename_i hmem
    have := msize_le_of_mem_entries hmem
    simp [msize]
    omega

mutual

/-- A value is already JSON-safe when it is built only from `null`,
booleans, safe-range numbers, strings, arrays and plain string-keyed
objects (no wide-integer wrapper anywhere). -/
def jsonSafe : JSValue → Bool
  | .vnull => true
  | .vbool _ => true
  | .vnum n => inSafeRange n
  | .vstr _ => true
  | .wideInt _ => false
  | .varr xs => jsonSafeList xs
  | .vobj es => jsonSafeEntries es

/-- Every member of the list is JSON-safe. -/
def jsonSafeList : List JSValue → Bool
  | [] => true
  | x :: xs => jsonSafe x && jsonSafeList xs

/-- Every value of the entry list is JSON-safe. -/
def jsonSafeEntries : List (String × JSValue) → Bool
  | [] => true
  | e :: es => jsonSafe e.2 && jsonSafeEntries es

end

mutual

/-- No object anywhere inside the value carries a truthy `properties`
entry (the shape that makes `serialize` replace the object with its
properties mapping). -/
def noTruthyProps : JSValue → Bool
  | .varr xs => noTruthyPropsList xs
  | .vobj es =>
    (match jsLookup "properties" es with
     | some p => !(truthy p)
     | none => true) && noTruthyPropsEntries es
  | _ => true

/-- `noTruthyProps` over every member of a list. -/
def noTruthyPropsList : List JSValue → Bool
  | [] => true
  | x :: xs => noTruthyProps x && noTruthyPropsList xs

/-- `noTruthyProps` over every value of an entry list. -/
def noTruthyPropsEntries : List (String × JSValue) → Bool
  | [] => true
  | e :: es => noTruthyProps e.2 && noTruthyPropsEntries es

end

theorem jsonSafeList_mem {xs : List JSValue} (h : jsonSafeList xs = true)
    {x : JSValue} (hx : x ∈ xs) : jsonSafe x = true := by
  induction xs with
  | nil => cases hx
  | cons y ys ih =>
    simp [jsonSafeList] at h
    rcases List.mem_cons.mp hx with h1 | h2
    · subst h1; exact h.1
    · exact ih h.2 h2

theorem jsonSafeEntries_mem {es : List (String × JSValue)} (h : jsonSafeEntries es = true)
    {e : String × JSValue} (he : e ∈ es) : jsonSafe e.2 = true := by
  induction es with
  | nil => cases he
  | cons f fs ih =>
    simp [jsonSafeEntries] at h
    rcases List.mem_cons.mp he with h1 | h2
    · subst h1; exact h.1
    · exact ih h.2 h2

theorem noTruthyPropsList_mem {xs : List JSValue} (h : noTruthyPropsList xs = true)
    {x : JSValue} (hx : x ∈ xs) : noTruthyProps x = true := by
  induction xs with
  | nil => cases hx
  | cons y ys ih =>
    simp [noTruthyPropsList] at h
    rcases List.mem_cons.mp hx with h1 | h2
    · subst h1; exact h.1
    · exact ih h.2 h2

theorem noTruthyPropsEntries_mem {es : List (String × JSValue)} (h : noTruthyPropsEntries es = true)
    {e : String × JSValue} (he : e ∈ es) : noTruthyProps e.2 = true := by
  induction es with
  | nil => cases he
  | cons f fs ih =>
    simp [noTruthyPropsEntries] at h
    rcases List.mem_cons.mp he with h1 | h2
    · subst h1; exact h.1
    · exact ih h.2 h2

/-- On JSON-safe values without a truthy `properties` entry anywhere,
`serialize` is the identity. -/
theorem serialize_eq_self_of_safe :
    ∀ v, jsonSafe v = true → noTruthyProps v = true → serialize v = v := by
  intro v
  induction v using JSValue.inductionOn with
  | hnull => intro _ _; exact serialize_vnull
  | hbool b => intro _ _; exact serialize_vbool b
  | hnum n => intro _ _; exact serialize_vnum n
  | hstr s => intro _ _; exact serialize_vstr s
  | hwide n => intro hs _; simp [jsonSafe] at hs
  | harr xs ih =>
    intro hs hp
    rw [serialize_varr]
    simp only [jsonSafe] at hs
    simp only [noTruthyProps] at hp
    congr 1
    have : xs.map serialize = xs.map id :=
      List.map_congr_left fun x hx =>
        ih x hx (jsonSafeList_mem hs hx) (noTruthyPropsList_mem hp hx)
    rw [this, List.map_id]
  | hobj es ih =>
    intro hs hp
    rw [serialize_vobj]
    simp only [jsonSafe] at hs
    simp only [noTruthyProps, Bool.and_eq_true] at hp
    obtain ⟨hp1, hp2⟩ := hp
    have hmap : (es.map fun e => (e.1, serialize e.2)) = es := by
      have : (es.map fun e => (e.1, serialize e.2)) = es.map id :=
        List.map_congr_left fun e he => by
          have := ih e he (jsonSafeEntries_mem hs he) (noTruthyPropsEntries_mem hp2 he)
          rw [this]
          rfl
      rw [this, List.map_id]
    cases hx : jsLookup "properties" es with
    | some p =>
      simp only [hx] at hp1 ⊢
      simp only [Bool.not_eq_true'] at hp1
      simp [hp1, hmap]
    | none =>
      simp [hmap]

/-- An HTTP response as produced by the express handlers: a status code
(`res.json` without `res.status` means 200) and a JSON body. -/
structure HttpResponse where
  status : Nat
  body : JSValue

/-- A neo4j record, modelled as its ordered key/value pairs; `rec.keys`
is the first projection and `rec.get k` looks the key up. -/
abbrev Record := List (String × JSValue)

/-- The `keys` field of a neo4j record. -/
def recKeys (r : Record) : List String := r.map fun e => e.1

/-- `rec.get(k)`.  Within one neo4j result every record carries the same
keys, so the lookup always succeeds there; the model totalises it with
`null` for an absent key. -/
def recGet (r : Record) (k : String) : JSValue := (jsLookup k r).getD .vnull

/-- Outcome of `session.run(cypher, params)`: either a record list or a
thrown driver error carrying an optional `code` field and a `message`. -/
inductive RunOutcome where
  | ok (records : List Record)
  | err (code : Option String) (message : String)

/-- Session-lifecycle side effects of one `POST /query` request, in the
order they happen: `driver.session(...)`, `session.run(...)`,
`session.close()`. -/
inductive GatewayEvent where
  | sessionOpened
  | ranQuery
  | sessionClosed
deriving DecidableEq

/-- JavaScript property access `v?.k`: `none` plays the role of
`undefined` (missing key, or access on a non-object). -/
def jsGetField (v : JSValue) (k : String) : Option JSValue :=
  match v with
  | .vobj es => jsLookup k es
  | _ => none

/-- `req.body?.params || {}` (app.js line 86): the declared parameters
when truthy, otherwise the empty object. -/
def paramsOf (body : JSValue) : JSValue :=
  match jsGetField body "params" with
  | some p => if truthy p then p else .vobj []
  | none => .vobj []

/-- Columns of the HTTP-API-shaped result (app.js line 93): the keys of
the first record, or the empty list when there are no records. -/
def queryColumns : List Record → List String
  | [] => []
  | r :: _ => recKeys r

/-- One row (app.js line 95): the positional serialization of the
record's value at each column. -/
def rowFor (columns : List String) (rec : Record) : List JSValue :=
  columns.map fun k => serialize (recGet rec k)

/-- One `data` entry: `{ row: [...] }`. -/
def dataEntry (columns : List String) (rec : Record) : JSValue :=
  .vobj [("row", .varr (rowFor columns rec))]

/-- The `data` array (app.js lines 94-96). -/
def queryData (columns : List String) (records : List Record) : List JSValue :=
  records.map (dataEntry columns)

/-- The success envelope `{ results: [{ columns, data }], errors: [] }`
(app.js line 99). -/
def successBody (columns : List String) (data : List JSValue) : JSValue :=
  .vobj [("results", .varr [.vobj [("columns", .varr (columns.map JSValue.vstr)),
                                   ("data", .varr data)]]),
         ("errors", .varr [])]

/-- `err.code || 'QueryError'` (app.js line 104): the error's own code
when it is a truthy string, the fallback tag otherwise. -/
def errCodeOr : Option String → String
  | some c => if c = "" then "QueryError" else c
  | none => "QueryError"

/-- The error envelope `{ results: [], errors: [{ code, message }] }`
(app.js lines 102-105). -/
def errorBody (code message : String) : JSValue :=
  .vobj [("results", .varr []),
         ("errors", .varr [.vobj [("code", .vstr code), ("message", .vstr message)]])]

/-- The 400 body for a missing or falsy `cypher` field (app.js line 87). -/
def missingCypherBody : JSValue :=
  .vobj [("error", .vstr "Missing 'cypher' in body.")]

/-- The `POST /query` handler (app.js lines 84-109).  The parsed JSON
request body comes in as a `JSValue`; the driver's `session.run` is the
oracle `run`.  Returns the HTTP response together with the trace of
session-lifecycle events:

```js
app.post('/query', async (req, res) => {
  const cypher = req.body?.cypher;
  const params = req.body?.params || {};
  if (!cypher) return res.status(400).json({ error: "Missing 'cypher' in body." });
  const session = driver.session({ database: NEO4J_DB });
  try {
    const result = await session.run(cypher, params);
    const columns = result.records.length ? result.records[0].keys : [];
    const data = result.records.map(rec => ({ row: columns.map(k => serialize(rec.get(k))) }));
    res.json({ results: [{ columns, data }], errors: [] });
  } catch (err) {
    res.status(400).json({ results: [], errors: [{ code: err.code || 'QueryError', message: err.message }] });
  } finally { await session.close(); }
});
```

A thrown driver error is always caught (`RunOutcome.err`), so the handler
is a total function: no execution error escapes to terminate the
process. -/
def postQuery (body : JSValue) (run : JSValue → JSValue → RunOutcome) :
    HttpResponse × List GatewayEvent :=
  match jsGetField body "cypher" with
  | none => (⟨400, missingCypherBody⟩, [])
  | some cypher =>
    if truthy cypher then
      match run cypher (paramsOf body) with
      | .ok records =>
        let columns := queryColumns records
        (⟨200, successBody columns (queryData columns records)⟩,
         [.sessionOpened, .ranQuery, .sessionClosed])
      | .err code msg =>
        (⟨400, errorBody (errCodeOr code) msg⟩,
         [.sessionOpened, .ranQuery, .sessionClosed])
    else
      (⟨400, missingCypherBody⟩, [])

/-- Socket events a `/debug/bolt` probe can observe. -/
inductive ProbeEvent where
  | connect
  | timeout
  | socketFailure (msg : String)
deriving DecidableEq

/-- State of one probe invocation: whether the socket has been destroyed
and the HTTP responses sent so far. -/
structure ProbeState where
  destroyed : Bool
  responses : List HttpResponse

/-- Response bodies of the `/debug/bolt` handler (app.js lines 115-117). -/
def boltOkBody : JSValue := .vobj [("connect", .vbool true)]

/-- Timeout body of `/debug/bolt`. -/
def boltTimeoutBody : JSValue :=
  .vobj [("connect", .vbool false), ("error", .vstr "timeout")]

/-- Error body of `/debug/bolt`. -/
def boltFailureBody (m : String) : JSValue :=
  .vobj [("connect", .vbool false), ("error", .vstr m)]

/-- One step of the `/debug/bolt` handler (app.js lines 112-119).  Each
of the three `once` listeners destroys the socket first and then sends
its response.  A destroyed socket emits no further connect / timeout /
error events (Node guarantee), so events arriving after destruction
leave the state unchanged. -/
def boltStep (st : ProbeState) (e : ProbeEvent) : ProbeState :=
  if st.destroyed then st
  else
    match e with
    | .connect => ⟨true, st.responses ++ [⟨200, boltOkBody⟩]⟩
    | .timeout => ⟨true, st.responses ++ [⟨504, boltTimeoutBody⟩]⟩
    | .socketFailure m => ⟨true, st.responses ++ [⟨502, boltFailureBody m⟩]⟩

/-- Socket events a `/debug/tls` probe can observe: the secure-connect
callback carries the data the handler reads off the socket. -/
inductive TlsEvent where
  | secureConnect (authorized : Bool) (alpn : Option String) (cipher : JSValue)
  | timeout
  | socketFailure (msg : String)

/-- The success body of `/debug/tls` (app.js lines 125-127), with
`sock.alpnProtocol || null` mapping a missing or empty protocol to
`null`. -/
def tlsOkBody (authorized : Bool) (alpn : Option String) (cipher : JSValue) : JSValue :=
  .vobj [("ok", .vbool true),
         ("info", .vobj [("authorized", .vbool authorized),
                         ("alpnProtocol",
                          match alpn with
                          | some a => if a = "" then .vnull else .vstr a
                          | none => .vnull),
                         ("cipher", cipher)])]

/-- Timeout body of `/debug/tls`. -/
def tlsTimeoutBody : JSValue := .vobj [("ok", .vbool false), ("error", .vstr "timeout")]

/-- Error body of `/debug/tls`. -/
def tlsFailureBody (m : String) : JSValue := .vobj [("ok", .vbool false), ("error", .vstr m)]

/-- One step of the `/debug/tls` handler (app.js lines 121-132).  The
secure-connect callback and the timeout listener destroy the socket
themselves; the error listener only responds, but a Node socket is
closed by the runtime directly after its error event fires, so the
socket is torn down there as well. -/
def tlsStep (st : ProbeState) (e : TlsEvent) : ProbeState :=
  if st.destroyed then st
  else
    match e with
    | .secureConnect a alpn cipher => ⟨true, st.responses ++ [⟨200, tlsOkBody a alpn cipher⟩]⟩
    | .timeout => ⟨true, st.responses ++ [⟨504, tlsTimeoutBody⟩]⟩
    | .socketFailure m => ⟨true, st.responses ++ [⟨502, tlsFailureBody m⟩]⟩

/-- A whole `/debug/bolt` probe invocation: fold the handler over the
socket events, starting from a live socket with no response sent. -/
def runBolt (events : List ProbeEvent) : ProbeState :=
  events.foldl boltStep ⟨false, []⟩

/-- A whole `/debug/tls` probe invocation. -/
def runTls (events : List TlsEvent) : ProbeState :=
  events.foldl tlsStep ⟨false, []⟩

/-- The comma-separated origin allow-list parsing (app.js lines 24-25):
split on commas, trim, drop empty pieces. -/
def parseAllowList (s : String) : List String :=
  ((s.splitOn ",").map fun t => t.trim).filter fun t => t ≠ ""

/-- The default `ORIGIN_ALLOW_LIST` configuration value. -/
def defaultOriginEnv : String :=
  "https://nettedletters.org,https://tool.nettedletters.org"

/-- The CORS origin callback (app.js lines 36-39): a request is allowed
when it carries no origin header, when the header is empty (JavaScript
`!origin` is truthiness, and the empty string is falsy), or when the
declared origin is on the allow-list. -/
def corsOriginAllowed (allow : List String) (origin : Option String) : Bool :=
  match origin with
  | none => true
  | some o => (o == "") || allow.contains o

/-- Outcome of the CORS middleware for one request: either control
proceeds to the route handlers, or the request is rejected with the
callback's error before any handler runs. -/
inductive CorsDecision where
  | proceed
  | rejected (msg : String)
deriving DecidableEq

/-- The CORS middleware decision (app.js lines 35-42): `cb(null, true)`
lets the request through; `cb(new Error('Not allowed by CORS: ' + origin),
false)` makes express fail the request before it reaches any route
handler. -/
def corsMiddleware (allow : List String) (origin : Option String) : CorsDecision :=
  if corsOriginAllowed allow origin then .proceed
  else .rejected ("Not allowed by CORS: " ++ origin.getD "")

theorem boltStep_stationary {st : ProbeState} (h : st.destroyed = true) (e : ProbeEvent) :
    boltStep st e = st := by
  simp [boltStep, h]

theorem tlsStep_stationary {st : ProbeState} (h : st.destroyed = true) (e : TlsEvent) :
    tlsStep st e = st := by
  simp [tlsStep, h]

theorem foldl_bolt_stationary {st : ProbeState} (h : st.destroyed = true) :
    ∀ events : List ProbeEvent, events.foldl boltStep st = st := by
  intro events
  induction events with
  | nil => rfl
  | cons e rest ih => rw [List.foldl_cons, boltStep_stationary h, ih]

theorem foldl_tls_stationary {st : ProbeState} (h : st.destroyed = true) :
    ∀ events : List TlsEvent, events.foldl tlsStep st = st := by
  intro events
  induction events with
  | nil => rfl
  | cons e rest ih => rw [List.foldl_cons, tlsStep_stationary h, ih]

theorem boltStep_first_destroyed (e : ProbeEvent) :
    (boltStep ⟨false, []⟩ e).destroyed = true := by
  cases e <;> simp [boltStep]

theorem tlsStep_first_destroyed (e : TlsEvent) :
    (tlsStep ⟨false, []⟩ e).destroyed = true := by
  cases e <;> simp [tlsStep]

theorem runBolt_cons (e : ProbeEvent) (rest : List ProbeEvent) :
    runBolt (e :: rest) = boltStep ⟨false, []⟩ e := by
  unfold runBolt
  rw [List.foldl_cons]
  exact foldl_bolt_stationary (boltStep_first_destroyed e) rest

theorem runTls_cons (e : TlsEvent) (rest : List TlsEvent) :
    runTls (e :: rest) = tlsStep ⟨false, []⟩ e := by
  unfold runTls
  rw [List.foldl_cons]
  exact foldl_tls_stationary (tlsStep_first_destroyed e) rest

/-- Claim C1: for every wide-integer (neo4j Integer) value handed to
`serialize`, a value inside the safe-integer range comes back as the
exact native number, and a value outside that range comes back as its
decimal string representation — never a lossy float. -/
theorem claim_C1_wide_integer (n : Int) :
    serialize (.wideInt n) =
      if inSafeRange n then JSValue.vnum n else JSValue.vstr (toString n) :=
  serialize_wideInt_eq n

/-- Claim C2: for one probe invocation (raw TCP `/debug/bolt` or TLS
`/debug/tls`), any non-empty sequence of socket events produces exactly
one HTTP response, leaves the socket destroyed from the first outcome
on, and every event after the first outcome is ignored (appending more
events changes nothing). -/
theorem claim_C2_probe_single_fire :
    (∀ events : List ProbeEvent, events ≠ [] →
        (runBolt events).responses.length = 1 ∧
        (runBolt events).destroyed = true ∧
        ∀ extra : List ProbeEvent, runBolt (events ++ extra) = runBolt events) ∧
    (∀ events : List TlsEvent, events ≠ [] →
        (runTls events).responses.length = 1 ∧
        (runTls events).destroyed = true ∧
        ∀ extra : List TlsEvent, runTls (events ++ extra) = runTls events) := by
  constructor
  · intro events hne
    cases events with
    | nil => exact absurd rfl hne
    | cons e rest =>
      refine ⟨?_, ?_, ?_⟩
      · rw [runBolt_cons]
        cases e <;> simp [boltStep]
      · rw [runBolt_cons]
        exact boltStep_first_destroyed e
      · intro extra
        rw [List.cons_append, runBolt_cons, runBolt_cons]
  · intro events hne
    cases events with
    | nil => exact absurd rfl hne
    | cons e rest =>
      refine ⟨?_, ?_, ?_⟩
      · rw [runTls_cons]
        cases e <;> simp [tlsStep]
      · rw [runTls_cons]
        exact tlsStep_first_destroyed e
      · intro extra
        rw [List.cons_append, runTls_cons, runTls_cons]

/-- Witness for claim C2 at concrete event sequences: a bolt probe that
connects and then would time out, and a TLS probe that errors and then
would time out, each send exactly one response. -/
theorem claim_C2_witness :
    (runBolt [ProbeEvent.connect, ProbeEvent.timeout]).responses.length = 1 ∧
    (runTls [TlsEvent.socketFailure "reset", TlsEvent.timeout]).responses.length = 1 :=
  ⟨(claim_C2_probe_single_fire.1 [ProbeEvent.connect, ProbeEvent.timeout]
      (List.cons_ne_nil _ _)).1,
   (claim_C2_probe_single_fire.2 [TlsEvent.socketFailure "reset", TlsEvent.timeout]
      (List.cons_ne_nil _ _)).1⟩

/-- Claim C3 is false as stated: this value is already JSON-safe (a plain
string-keyed mapping of JSON-safe values), yet `serialize` does not
return it unchanged — the truthy `properties` key makes the serializer
treat it as a graph entity and strip the outer object. -/
theorem claim_C3_counterexample :
    jsonSafe (JSValue.vobj [("properties", JSValue.vobj [("x", JSValue.vnum 1)])]) = true ∧
    serialize (JSValue.vobj [("properties", JSValue.vobj [("x", JSValue.vnum 1)])]) ≠
      JSValue.vobj [("properties", JSValue.vobj [("x", JSValue.vnum 1)])] := by
  constructor
  · simp [jsonSafe, jsonSafeEntries, inSafeRange, maxSafeInteger]
  · rw [serialize_vobj]
    simp [jsLookup, truthy, jsEntries, serialize_vnum]

/-- Claim C3 (amended): for every already-JSON-safe value none of whose
objects carries a truthy `properties` entry, `serialize` returns the
value unchanged, and hence serializing twice equals serializing once. -/
theorem claim_C3_amended (v : JSValue)
    (h1 : jsonSafe v = true) (h2 : noTruthyProps v = true) :
    serialize v = v ∧ serialize (serialize v) = serialize v := by
  have hid := serialize_eq_self_of_safe v h1 h2
  refine ⟨hid, ?_⟩
  rw [hid]
  exact hid

/-- Witness for the amended claim C3 at a concrete JSON-safe value. -/
theorem claim_C3_witness :
    serialize (JSValue.vobj [("a", JSValue.vnum 5),
                             ("b", JSValue.varr [JSValue.vnull, JSValue.vstr "ok"])]) =
      JSValue.vobj [("a", JSValue.vnum 5),
                    ("b", JSValue.varr [JSValue.vnull, JSValue.vstr "ok"])] :=
  (claim_C3_amended
    (JSValue.vobj [("a", JSValue.vnum 5),
                   ("b", JSValue.varr [JSValue.vnull, JSValue.vstr "ok"])])
    (by simp [jsonSafe, jsonSafeEntries, jsonSafeList, inSafeRange, maxSafeInteger])
    (by simp [noTruthyProps, noTruthyPropsEntries, noTruthyPropsList, jsLookup])).1

/-- Claim C4: for every entity-like object whose `properties` field holds
a mapping, `serialize` returns exactly the recursively serialized
properties mapping; identity, labels, type and every other field of the
enclosing object are dropped. -/
theorem claim_C4_entity_properties (es props : List (String × JSValue))
    (h : jsLookup "properties" es = some (.vobj props)) :
    serialize (.vobj es) = .vobj (props.map fun e => (e.1, serialize e.2)) := by
  rw [serialize_vobj, h]
  simp [truthy, jsEntries]

/-- Witness for claim C4 at a concrete node-like object: identity and
labels disappear, only the serialized properties remain. -/
theorem claim_C4_witness :
    serialize (JSValue.vobj
      [("identity", JSValue.wideInt 7),
       ("labels", JSValue.varr [JSValue.vstr "Person"]),
       ("properties", JSValue.vobj [("name", JSValue.vstr "Ada")])]) =
      JSValue.vobj [("name", JSValue.vstr "Ada")] := by
  rw [claim_C4_entity_properties _ [("name", JSValue.vstr "Ada")] (by simp [jsLookup])]
  simp [serialize_vstr]

/-- Claim C5: a successful `POST /query` returning `records` responds 200
with the envelope `{ results: [{ columns, data }], errors: [] }`, where
`columns` is the key sequence of the first record (empty when there are
no records), `data` has one entry per record, and each entry's `row` is
the positional serialization of that record's value at each column, so
every row is as long as `columns`. -/
theorem claim_C5_success_shape (body : JSValue) (run : JSValue → JSValue → RunOutcome)
    (cypher : JSValue) (records : List Record)
    (hc : jsGetField body "cypher" = some cypher)
    (ht : truthy cypher = true)
    (hr : run cypher (paramsOf body) = RunOutcome.ok records) :
    postQuery body run =
      (⟨200, successBody (queryColumns records)
                         (queryData (queryColumns records) records)⟩,
       [.sessionOpened, .ranQuery, .sessionClosed]) ∧
    (queryData (queryColumns records) records).length = records.length ∧
    (∀ rec ∈ records,
        dataEntry (queryColumns records) rec =
          .vobj [("row", .varr ((queryColumns records).map
            fun k => serialize (recGet rec k)))]) ∧
    (∀ rec ∈ records,
        (rowFor (queryColumns records) rec).length = (queryColumns records).length) ∧
    queryColumns records = (match records with
      | [] => ([] : List String)
      | r :: _ => recKeys r) := by
  refine ⟨?_, ?_, ?_, ?_, ?_⟩
  · simp [postQuery, hc, ht, hr]
  · simp [queryData]
  · intro rec _
    rfl
  · intro rec _
    simp [rowFor]
  · cases records <;> rfl

/-- Concrete two-record result used to witness claim C5. -/
def exRecordsC5 : List Record :=
  [[("a", JSValue.wideInt 1), ("b", JSValue.vstr "x")],
   [("a", JSValue.wideInt 2), ("b", JSValue.vnull)]]

/-- Concrete request body used to witness claim C5. -/
def exBodyC5 : JSValue :=
  JSValue.vobj [("cypher", JSValue.vstr "MATCH (n) RETURN n.a AS a, n.b AS b")]

/-- Concrete run oracle used to witness claim C5. -/
def exRunC5 : JSValue → JSValue → RunOutcome := fun _ _ => RunOutcome.ok exRecordsC5

/-- Witness for claim C5 at a concrete request: two records over columns
`a`, `b`, one value a safe wide integer and one a string. -/
theorem claim_C5_witness :
    postQuery exBodyC5 exRunC5 =
      (⟨200, successBody (queryColumns exRecordsC5)
                         (queryData (queryColumns exRecordsC5) exRecordsC5)⟩,
       [.sessionOpened, .ranQuery, .sessionClosed]) ∧
    (queryData (queryColumns exRecordsC5) exRecordsC5).length = 2 :=
  ⟨(claim_C5_success_shape exBodyC5 exRunC5
      (JSValue.vstr "MATCH (n) RETURN n.a AS a, n.b AS b") exRecordsC5 rfl rfl rfl).1,
   (claim_C5_success_shape exBodyC5 exRunC5
      (JSValue.vstr "MATCH (n) RETURN n.a AS a, n.b AS b") exRecordsC5 rfl rfl rfl).2.1⟩

/-- Claim C6: a `POST /query` whose body has no `cypher` field answers
400 with an error body, and the session-event trace is empty — the
external driver is never contacted (no session, no run). -/
theorem claim_C6_missing_cypher (body : JSValue) (run : JSValue → JSValue → RunOutcome)
    (h : jsGetField body "cypher" = none) :
    postQuery body run = (⟨400, missingCypherBody⟩, []) := by
  simp [postQuery, h]

/-- Witness for claim C6 at the empty body `{}`. -/
theorem claim_C6_witness :
    postQuery (JSValue.vobj []) (fun _ _ => RunOutcome.ok []) =
      (⟨400, missingCypherBody⟩, []) :=
  claim_C6_missing_cypher (JSValue.vobj []) (fun _ _ => RunOutcome.ok []) rfl

/-- Claim C7: when the query execution throws, the handler catches the
error and answers 400 with `{ results: [], errors: [{ code, message }] }`,
taking the error's own (non-empty) code and falling back to the tag
`QueryError` when the error carries none; the session is still closed and
the handler returns normally, so the error never terminates the
process. -/
theorem claim_C7_error_envelope (body : JSValue) (run : JSValue → JSValue → RunOutcome)
    (cypher : JSValue) (code : Option String) (msg : String)
    (hc : jsGetField body "cypher" = some cypher)
    (ht : truthy cypher = true)
    (hr : run cypher (paramsOf body) = RunOutcome.err code msg) :
    postQuery body run =
      (⟨400, errorBody (errCodeOr code) msg⟩,
       [.sessionOpened, .ranQuery, .sessionClosed]) ∧
    (∀ c, code = some c → c ≠ "" → errCodeOr code = c) ∧
    (code = none → errCodeOr code = "QueryError") := by
  refine ⟨?_, ?_, ?_⟩
  · simp [postQuery, hc, ht, hr]
  · intro c hcode hne
    subst hcode
    simp [errCodeOr, hne]
  · intro hcode
    subst hcode
    rfl

/-- Witness for claim C7 at a concrete failing query. -/
theorem claim_C7_witness :
    postQuery (JSValue.vobj [("cypher", JSValue.vstr "RETURN syntax error")])
        (fun _ _ => RunOutcome.err (some "Neo.ClientError.Statement.SyntaxError") "bad input") =
      (⟨400, errorBody (errCodeOr (some "Neo.ClientError.Statement.SyntaxError")) "bad input"⟩,
       [.sessionOpened, .ranQuery, .sessionClosed]) :=
  (claim_C7_error_envelope
    (JSValue.vobj [("cypher", JSValue.vstr "RETURN syntax error")])
    (fun _ _ => RunOutcome.err (some "Neo.ClientError.Statement.SyntaxError") "bad input")
    (JSValue.vstr "RETURN syntax error")
    (some "Neo.ClientError.Statement.SyntaxError") "bad input"
    rfl rfl rfl).1

/-- Claim C8: whenever `POST /query` opened a session, the trace also
contains the `session.close()` event — the `finally` block releases it on
the success path and on the caught-error path alike. -/
theorem claim_C8_session_released (body : JSValue) (run : JSValue → JSValue → RunOutcome) :
    GatewayEvent.sessionOpened ∈ (postQuery body run).2 →
    GatewayEvent.sessionClosed ∈ (postQuery body run).2 := by
  cases hc : jsGetField body "cypher" with
  | none =>
    simp [postQuery, hc]
  | some cypher =>
    cases ht : truthy cypher with
    | false => simp [postQuery, hc, ht]
    | true =>
      cases hr : run cypher (paramsOf body) with
      | ok records => simp [postQuery, hc, ht, hr]
      | err code msg => simp [postQuery, hc, ht, hr]

/-- Witness for claim C8: a request that did open a session (here on the
error path) also closed it. -/
theorem claim_C8_witness :
    GatewayEvent.sessionClosed ∈
      (postQuery (JSValue.vobj [("cypher", JSValue.vstr "RETURN 1")])
        (fun _ _ => RunOutcome.err none "boom")).2 :=
  claim_C8_session_released
    (JSValue.vobj [("cypher", JSValue.vstr "RETURN 1")])
    (fun _ _ => RunOutcome.err none "boom")
    (by simp [postQuery, jsGetField, jsLookup, truthy])

/-- Claim C9 is false as stated on one boundary input: a request that
declares the empty string as its origin declares an origin that is never
on the parsed allow-list (the parser drops empty pieces), yet the
middleware lets it proceed, because JavaScript `!origin` also accepts the
empty string. -/
theorem claim_C9_counterexample :
    "" ∉ parseAllowList defaultOriginEnv ∧
    corsMiddleware (parseAllowList defaultOriginEnv) (some "") = CorsDecision.proceed := by
  constructor
  · intro hmem
    have := (List.mem_filter.mp hmem).2
    simp at this
  · simp [corsMiddleware, corsOriginAllowed]

/-- Claim C9 (amended): a request with no declared origin always
proceeds; a request with a declared origin proceeds exactly when the
origin is empty (treated like a missing origin by the truthiness test) or
on the allow-list, and is otherwise rejected before any handler runs. -/
theorem claim_C9_amended (allow : List String) (o : String) :
    corsMiddleware allow none = CorsDecision.proceed ∧
    corsMiddleware allow (some o) =
      (if (o == "") || allow.contains o then CorsDecision.proceed
       else CorsDecision.rejected ("Not allowed by CORS: " ++ o)) := by
  constructor
  · rfl
  · cases hcond : (o == "") || allow.contains o with
    | true =>
      simp only [corsMiddleware, corsOriginAllowed]
      rw [if_pos hcond]
      simp
    | false =>
      simp only [corsMiddleware, corsOriginAllowed]
      rw [if_neg (by rw [hcond]; simp)]
      simp

/-- Claim C10: a `POST /query` whose `cypher` field is present but falsy
(empty string, null, false, zero) is rejected exactly like a missing
field: 400, error body, and no contact with the driver. -/
theorem claim_C10_falsy_cypher (body : JSValue) (run : JSValue → JSValue → RunOutcome)
    (cypher : JSValue)
    (hc : jsGetField body "cypher" = some cypher)
    (ht : truthy cypher = false) :
    postQuery body run = (⟨400, missingCypherBody⟩, []) := by
  simp [postQuery, hc, ht]

/-- Witness for claim C10 at the concrete body with an empty cypher
string. -/
theorem claim_C10_witness :
    postQuery (JSValue.vobj [("cypher", JSValue.vstr "")])
        (fun _ _ => RunOutcome.ok []) =
      (⟨400, missingCypherBody⟩, []) :=
  claim_C10_falsy_cypher
    (JSValue.vobj [("cypher", JSValue.vstr "")])
    (fun _ _ => RunOutcome.ok [])
    (JSValue.vstr "")
    rfl
    rfl
